import Mathlib

/-!
Verification of the meta-protocol command-encoding and response-interpretation
layer (`meta_protocol.rs`).

Modelling conventions:
* Byte sequences (keys, opaque tokens, payloads, the outbound wire stream) are
  modelled as Lean `String`s; a byte corresponds to a character and the Rust
  byte length `len()` corresponds to `String.length`.
* Each `meta_*` operation's write side is embedded as a pure encoder that
  either fails with the validation error (in which case nothing has been
  written to the connection) or returns the exact byte sequence the Rust code
  writes, in write order.  Transport failures are outside the model.
* The response side (`match self.drive_receive(..)`) is embedded per verb as a
  pure interpreter from the parsed `MetaResponse` to
  `Option (Except Error (Option MetaValue))`, where the outer `none` marks the
  one aborting (panicking) path: `items.remove(0)` on an empty vector.
* Helpers that live elsewhere in the crate (`validate_key_length`,
  `validate_opaque_length`, `check_and_write_opaque`,
  `check_and_write_meta_flags`, `check_and_write_quiet_mode`, `Status`,
  `MetaResponse`, `MetaValue`, the status-to-error conversion) are modelled
  from the spec; each such definition says so in its doc comment.
-/

namespace MetaProtocol

/-- Modelled from the spec: the closed enumeration of protocol outcome codes
("e.g. stored, not-found, deleted, exists, no-op, …").  `existsStatus` stands
for the `Exists` status (optimistic-concurrency conflict on remove). -/
inductive Status where
  | stored
  | notStored
  | deleted
  | touched
  | existsStatus
  | notFound
  | noOp
deriving DecidableEq, Repr

/-- Modelled from the spec: a ReturnedRecord (`MetaValue`), with sparse fields
populated only for flags that requested them. -/
structure MetaValue where
  key : Option String
  cas : Option Nat
  data : Option String
deriving DecidableEq, Repr

/-- Modelled from the spec: a parsed response is either a bare status code or
a status carrying zero-or-more returned records (`MetaResponse::Data` holds an
optional collection of records). -/
inductive MetaResponse where
  | status (s : Status)
  | data (d : Option (List MetaValue))
deriving DecidableEq, Repr

/-- Modelled from the spec's error taxonomy: a validation error (length bound
exceeded, detected before any bytes are written) or a protocol error carrying
the offending status.  Transport errors are outside the model. -/
inductive Error where
  | validation
  | protocol (s : Status)
deriving DecidableEq, Repr

/-- Modelled from the spec: the status-to-error conversion (Rust's
`impl From<Status> for Error`, used by `s.into()`), a total function from any
non-success status to a domain error value carrying that status. -/
def statusToError (s : Status) : Error := Error.protocol s

/-- Modelled from the spec: `validate_key_length` accepts raw keys of length
at most 250 bytes and rejects longer ones with a validation error, returning
the validated key on success. -/
def validate_key_length (k : String) : Except Error String :=
  if k.length ≤ 250 then Except.ok k else Except.error Error.validation

/-- Modelled from the spec: `validate_opaque_length` accepts tokens of length
at most 32 bytes and rejects longer ones with a validation error. -/
def validate_opaque_length (o : String) : Except Error String :=
  if o.length ≤ 32 then Except.ok o else Except.error Error.validation

/-- Embedding of `if let Some(opaque) = &opaque { validate_opaque_length(opaque)?; }`,
the guard each operation runs before writing anything. -/
def validate_opaque_opt : Option String → Except Error Unit
  | some o =>
    match validate_opaque_length o with
    | Except.error e => Except.error e
    | Except.ok _ => Except.ok ()
  | none => Except.ok ()

/-- Embedding of Rust's `str::starts_with(c: char)`: whether the first
character of the flag token is `c`. -/
def starts_with (s : String) (c : Char) : Bool := s.data.head? == some c

/-- Modelled from the spec: the bytes `check_and_write_opaque` writes — when
an opaque token is present, its canonical flag `O<opaque>` preceded by the
flag separator; otherwise nothing. -/
def check_and_write_opaque : Option String → String
  | some o => " O" ++ o
  | none => ""

/-- Loop body accumulator for `check_and_write_meta_flags`: the bytes written
by the iteration over the caller-supplied flag list. -/
def write_basic_flags_core (opq : Option String) : List String → String
  | [] => ""
  | f :: rest =>
    (if starts_with f 'M' || starts_with f 'q' || (starts_with f 'O' && opq.isSome)
     then "" else " " ++ f) ++ write_basic_flags_core opq rest

/-- Modelled from the spec: the bytes `check_and_write_meta_flags` writes for
the get/set/delete verbs — every caller-supplied flag in order, each preceded
by a space, except that flags beginning with `M` or `q` are always dropped and
flags beginning with `O` are dropped when an explicit opaque is present. -/
def check_and_write_meta_flags (metaFlags : Option (List String)) (opq : Option String) : String :=
  match metaFlags with
  | none => ""
  | some fs => write_basic_flags_core opq fs

/-- Modelled from the spec: the bytes `check_and_write_quiet_mode` writes —
under quiet mode the `q` flag, the line terminator and the fixed
synchronizing no-op command `mn\r\n`; otherwise just the line terminator. -/
def check_and_write_quiet_mode (isQuiet : Bool) : String :=
  if isQuiet then " q\r\nmn\r\n" else "\r\n"

/-- Embedding of the inline delta block of `meta_increment`/`meta_decrement`
(lines 306–311 and 367–372): when a delta is supplied and differs from 1, the
flag `D<delta>` preceded by a space; otherwise nothing ("skip writing …
because it's default behaviour and we can save the bytes"). -/
def write_delta : Option Nat → String
  | some d => if d ≠ 1 then " D" ++ Nat.repr d else ""
  | none => ""

/-- Embedding of the inline meta-flag loop of `meta_increment`/`meta_decrement`
(lines 313–328 and 374–389): each caller flag is skipped when it begins with
`M`, begins with `q`, begins with `D` while an explicit delta was supplied, or
begins with `O` while an explicit opaque was supplied; every kept flag is
written preceded by a space, in the order given. -/
def write_arith_flags_core (delta : Option Nat) (opq : Option String) : List String → String
  | [] => ""
  | f :: rest =>
    (if starts_with f 'M' || starts_with f 'q'
        || (starts_with f 'D' && delta.isSome)
        || (starts_with f 'O' && opq.isSome)
     then "" else " " ++ f) ++ write_arith_flags_core delta opq rest

/-- Wrapper handling `if let Some(meta_flags) = meta_flags` around the
arithmetic meta-flag loop. -/
def write_arith_flags (metaFlags : Option (List String)) (delta : Option Nat) (opq : Option String) : String :=
  match metaFlags with
  | none => ""
  | some fs => write_arith_flags_core delta opq fs

/-- Embedding of `meta_get` (write side, lines 160–175): validate the key and
the optional opaque, then write `mg <key>`, the opaque flag, the filtered
caller flags and the quiet-mode suffix.  The returned string is the exact
byte sequence written to the connection; an error means no byte was
written. -/
def meta_get_encode (key : String) (isQuiet : Bool) (opq : Option String)
    (metaFlags : Option (List String)) : Except Error String :=
  match validate_key_length key with
  | Except.error e => Except.error e
  | Except.ok kr =>
    match validate_opaque_opt opq with
    | Except.error e => Except.error e
    | Except.ok _ =>
      Except.ok ("mg " ++ kr ++ check_and_write_opaque opq
        ++ check_and_write_meta_flags metaFlags opq
        ++ check_and_write_quiet_mode isQuiet)

/-- Embedding of `meta_set` (write side, lines 202–233): validate key and
opaque, then write `ms <key> <datalen>`, the opaque flag, the filtered caller
flags, ` q` when quiet, the terminator, the payload block, and `mn\r\n` when
quiet. -/
def meta_set_encode (key : String) (value : String) (isQuiet : Bool)
    (opq : Option String) (metaFlags : Option (List String)) : Except Error String :=
  match validate_key_length key with
  | Except.error e => Except.error e
  | Except.ok kr =>
    match validate_opaque_opt opq with
    | Except.error e => Except.error e
    | Except.ok _ =>
      Except.ok ("ms " ++ kr ++ " " ++ Nat.repr value.length
        ++ check_and_write_opaque opq
        ++ check_and_write_meta_flags metaFlags opq
        ++ (if isQuiet then " q" else "")
        ++ "\r\n" ++ value ++ "\r\n"
        ++ (if isQuiet then "mn\r\n" else ""))

/-- Embedding of `meta_delete` (write side, lines 255–270): as `meta_get` but
with the `md` verb. -/
def meta_delete_encode (key : String) (isQuiet : Bool) (opq : Option String)
    (metaFlags : Option (List String)) : Except Error String :=
  match validate_key_length key with
  | Except.error e => Except.error e
  | Except.ok kr =>
    match validate_opaque_opt opq with
    | Except.error e => Except.error e
    | Except.ok _ =>
      Except.ok ("md " ++ kr ++ check_and_write_opaque opq
        ++ check_and_write_meta_flags metaFlags opq
        ++ check_and_write_quiet_mode isQuiet)

/-- Embedding of `meta_increment` (write side, lines 294–332): validate key
and opaque, then write `ma <key>`, the opaque flag, the delta flag (omitted
for delta 1 or absent), the filtered caller flags and the quiet-mode suffix.
No mode flag is written (increment is the protocol default). -/
def meta_increment_encode (key : String) (isQuiet : Bool) (opq : Option String)
    (delta : Option Nat) (metaFlags : Option (List String)) : Except Error String :=
  match validate_key_length key with
  | Except.error e => Except.error e
  | Except.ok kr =>
    match validate_opaque_opt opq with
    | Except.error e => Except.error e
    | Except.ok _ =>
      Except.ok ("ma " ++ kr ++ check_and_write_opaque opq
        ++ write_delta delta
        ++ write_arith_flags metaFlags delta opq
        ++ check_and_write_quiet_mode isQuiet)

/-- Embedding of `meta_decrement` (write side, lines 355–393): as
`meta_increment` except the explicit mode flag ` MD` is written immediately
after the key, before the opaque, delta and caller flags. -/
def meta_decrement_encode (key : String) (isQuiet : Bool) (opq : Option String)
    (delta : Option Nat) (metaFlags : Option (List String)) : Except Error String :=
  match validate_key_length key with
  | Except.error e => Except.error e
  | Except.ok kr =>
    match validate_opaque_opt opq with
    | Except.error e => Except.error e
    | Except.ok _ =>
      Except.ok ("ma " ++ kr ++ " MD" ++ check_and_write_opaque opq
        ++ write_delta delta
        ++ write_arith_flags metaFlags delta opq
        ++ check_and_write_quiet_mode isQuiet)

/-- Embedding of the response match of `meta_get` (lines 177–187).  The outer
`none` models the aborting path: `items.remove(0)` panics when the parser
returned a present-but-empty records collection. -/
def meta_get_interpret : MetaResponse → Option (Except Error (Option MetaValue))
  | MetaResponse.status Status.notFound => some (Except.ok none)
  | MetaResponse.status Status.noOp => some (Except.ok none)
  | MetaResponse.status s => some (Except.error (statusToError s))
  | MetaResponse.data none => some (Except.ok none)
  | MetaResponse.data (some []) => none
  | MetaResponse.data (some (item :: _)) => some (Except.ok (some item))

/-- Embedding of the response match of `meta_set` (lines 235–245). -/
def meta_set_interpret : MetaResponse → Option (Except Error (Option MetaValue))
  | MetaResponse.status Status.stored => some (Except.ok none)
  | MetaResponse.status Status.noOp => some (Except.ok none)
  | MetaResponse.status s => some (Except.error (statusToError s))
  | MetaResponse.data none => some (Except.ok none)
  | MetaResponse.data (some []) => none
  | MetaResponse.data (some (item :: _)) => some (Except.ok (some item))

/-- Embedding of the response match of `meta_delete` (lines 272–283): the
`Exists` status is matched explicitly, ahead of the generic status arm, and
yields `Error::Protocol(Status::Exists)`. -/
def meta_delete_interpret : MetaResponse → Option (Except Error (Option MetaValue))
  | MetaResponse.status Status.deleted => some (Except.ok none)
  | MetaResponse.status Status.existsStatus =>
      some (Except.error (Error.protocol Status.existsStatus))
  | MetaResponse.status Status.noOp => some (Except.ok none)
  | MetaResponse.status s => some (Except.error (statusToError s))
  | MetaResponse.data none => some (Except.ok none)
  | MetaResponse.data (some []) => none
  | MetaResponse.data (some (item :: _)) => some (Except.ok (some item))

/-- Embedding of the (textually identical) response matches of
`meta_increment` (lines 334–344) and `meta_decrement` (lines 395–405). -/
def meta_arithmetic_interpret : MetaResponse → Option (Except Error (Option MetaValue))
  | MetaResponse.status Status.stored => some (Except.ok none)
  | MetaResponse.status Status.noOp => some (Except.ok none)
  | MetaResponse.status s => some (Except.error (statusToError s))
  | MetaResponse.data none => some (Except.ok none)
  | MetaResponse.data (some []) => none
  | MetaResponse.data (some (item :: _)) => some (Except.ok (some item))

/-- Rendering of a flag-token sequence onto the wire: each token is written
preceded by a single space, in order.  This is how every emitted flag reaches
the stream in the encoders above. -/
def emit_flags : List String → String
  | [] => ""
  | f :: rest => " " ++ f ++ emit_flags rest

/-- Flag Negotiator view, opaque contribution: the canonical token
`O<opaque>` when an explicit opaque is present. -/
def opq_flag : Option String → List String
  | some o => ["O" ++ o]
  | none => []

/-- Flag Negotiator view, delta contribution: the canonical token `D<delta>`
when an explicit delta other than 1 is present. -/
def delta_flag : Option Nat → List String
  | some d => if d ≠ 1 then ["D" ++ Nat.repr d] else []
  | none => []

/-- Flag Negotiator view, quiet contribution: the token `q`, emitted last,
when quiet mode is requested. -/
def quiet_flag (isQuiet : Bool) : List String :=
  if isQuiet then ["q"] else []

/-- The keep-predicate of the arithmetic meta-flag loop: a caller flag
survives unless it begins with `M`, begins with `q`, begins with `D` while an
explicit delta was supplied, or begins with `O` while an explicit opaque was
supplied. -/
def keep_arith_flag (delta : Option Nat) (opq : Option String) (f : String) : Bool :=
  !(starts_with f 'M' || starts_with f 'q'
    || (starts_with f 'D' && delta.isSome)
    || (starts_with f 'O' && opq.isSome))

/-- Flag Negotiator view: the caller-supplied flag tokens kept by the
arithmetic meta-flag loop, in order. -/
def arith_caller_flags (metaFlags : Option (List String)) (delta : Option Nat)
    (opq : Option String) : List String :=
  match metaFlags with
  | none => []
  | some fs => fs.filter (keep_arith_flag delta opq)

/-- The keep-predicate of `check_and_write_meta_flags`: a caller flag
survives unless it begins with `M`, begins with `q`, or begins with `O` while
an explicit opaque was supplied. -/
def keep_basic_flag (opq : Option String) (f : String) : Bool :=
  !(starts_with f 'M' || starts_with f 'q' || (starts_with f 'O' && opq.isSome))

/-- Flag Negotiator view: the caller-supplied flag tokens kept by
`check_and_write_meta_flags`, in order. -/
def basic_caller_flags (metaFlags : Option (List String)) (opq : Option String) : List String :=
  match metaFlags with
  | none => []
  | some fs => fs.filter (keep_basic_flag opq)

/-- The ordered flag-token sequence of a get/set/delete command line: the
canonical opaque flag, then the kept caller flags, then `q` when quiet. -/
def basic_flags (opq : Option String) (metaFlags : Option (List String))
    (isQuiet : Bool) : List String :=
  opq_flag opq ++ basic_caller_flags metaFlags opq ++ quiet_flag isQuiet

/-- The ordered flag-token sequence of a `meta_increment` command line: the
canonical opaque flag, then the delta flag, then the kept caller flags, then
`q` when quiet.  No mode flag appears. -/
def meta_increment_flags (opq : Option String) (delta : Option Nat)
    (metaFlags : Option (List String)) (isQuiet : Bool) : List String :=
  opq_flag opq ++ delta_flag delta ++ arith_caller_flags metaFlags delta opq
    ++ quiet_flag isQuiet

/-- The ordered flag-token sequence of a `meta_decrement` command line: the
explicit mode flag `MD` first, immediately after the key, then exactly the
increment sequence. -/
def meta_decrement_flags (opq : Option String) (delta : Option Nat)
    (metaFlags : Option (List String)) (isQuiet : Bool) : List String :=
  ["MD"] ++ opq_flag opq ++ delta_flag delta ++ arith_caller_flags metaFlags delta opq
    ++ quiet_flag isQuiet

/-- Everything of a `meta_set` command line that precedes the quiet flag and
the line terminator: verb, key, decimal payload length, opaque flag and kept
caller flags. -/
def set_cmd_head (key : String) (value : String) (opq : Option String)
    (metaFlags : Option (List String)) : String :=
  "ms " ++ key ++ " " ++ Nat.repr value.length
    ++ check_and_write_opaque opq ++ check_and_write_meta_flags metaFlags opq

/-- Everything of an arithmetic command line that follows the key (and, for
decrement, the mode flag): opaque flag, delta flag, kept caller flags and the
quiet-mode suffix. -/
def arith_suffix (opq : Option String) (delta : Option Nat)
    (metaFlags : Option (List String)) (isQuiet : Bool) : String :=
  check_and_write_opaque opq ++ write_delta delta
    ++ write_arith_flags metaFlags delta opq ++ check_and_write_quiet_mode isQuiet

/-! Supporting lemmas: first-character facts, the correspondence between the
byte-level writers and the flag-token view, and evaluation of the encoders
under successful validation. -/

theorem head_eq_of_starts {s : String} {c : Char} (h : starts_with s c = true) :
    s.data.head? = some c := by
  simpa [starts_with] using h

theorem starts_with_append_O (o : String) : starts_with ("O" ++ o) 'O' = true := by
  simp [starts_with, String.data_append]

theorem starts_with_append_D (n : Nat) : starts_with ("D" ++ Nat.repr n) 'D' = true := by
  simp [starts_with, String.data_append]

theorem not_starts_of_starts {s : String} {c c' : Char}
    (h : starts_with s c = true) (hne : c ≠ c') : starts_with s c' = false := by
  simp [starts_with, head_eq_of_starts h, hne]

theorem mem_opq_flag {o : Option String} {f : String} (h : f ∈ opq_flag o) :
    starts_with f 'O' = true ∧ o.isSome = true := by
  cases o with
  | none => simp [opq_flag] at h
  | some a =>
    simp [opq_flag] at h
    exact ⟨h ▸ starts_with_append_O a, rfl⟩

theorem mem_delta_flag {d : Option Nat} {f : String} (h : f ∈ delta_flag d) :
    starts_with f 'D' = true ∧ d.isSome = true := by
  cases d with
  | none => simp [delta_flag] at h
  | some n =>
    simp only [delta_flag] at h
    split at h
    · simp at h
      exact ⟨h ▸ starts_with_append_D n, rfl⟩
    · simp at h

theorem mem_quiet_flag {q : Bool} {f : String} (h : f ∈ quiet_flag q) :
    starts_with f 'q' = true := by
  cases q with
  | false => simp [quiet_flag] at h
  | true =>
    simp [quiet_flag] at h
    subst h
    decide

theorem keep_arith_flag_elim {d : Option Nat} {o : Option String} {f : String}
    (h : keep_arith_flag d o f = true) :
    starts_with f 'M' = false ∧ starts_with f 'q' = false
    ∧ (d.isSome = true → starts_with f 'D' = false)
    ∧ (o.isSome = true → starts_with f 'O' = false) := by
  rw [keep_arith_flag, Bool.not_eq_true'] at h
  simp only [Bool.or_eq_false_iff, Bool.and_eq_false_iff] at h
  obtain ⟨⟨⟨h1, h2⟩, h3⟩, h4⟩ := h
  refine ⟨h1, h2, ?_, ?_⟩
  · intro hd
    rcases h3 with h3 | h3
    · exact h3
    · rw [h3] at hd; cases hd
  · intro ho
    rcases h4 with h4 | h4
    · exact h4
    · rw [h4] at ho; cases ho

theorem keep_basic_flag_elim {o : Option String} {f : String}
    (h : keep_basic_flag o f = true) :
    starts_with f 'M' = false ∧ starts_with f 'q' = false
    ∧ (o.isSome = true → starts_with f 'O' = false) := by
  rw [keep_basic_flag, Bool.not_eq_true'] at h
  simp only [Bool.or_eq_false_iff, Bool.and_eq_false_iff] at h
  obtain ⟨⟨h1, h2⟩, h3⟩ := h
  refine ⟨h1, h2, ?_⟩
  intro ho
  rcases h3 with h3 | h3
  · exact h3
  · rw [h3] at ho; cases ho

theorem mem_arith_caller {fs : List String} {d : Option Nat} {o : Option String} {f : String}
    (h : f ∈ arith_caller_flags (some fs) d o) :
    f ∈ fs ∧ keep_arith_flag d o f = true := by
  simpa [arith_caller_flags] using List.mem_filter.mp h

theorem mem_basic_caller {fs : List String} {o : Option String} {f : String}
    (h : f ∈ basic_caller_flags (some fs) o) :
    f ∈ fs ∧ keep_basic_flag o f = true := by
  simpa [basic_caller_flags] using List.mem_filter.mp h

theorem mem_arith_caller_keep {fs : Option (List String)} {d : Option Nat}
    {o : Option String} {f : String} (h : f ∈ arith_caller_flags fs d o) :
    keep_arith_flag d o f = true := by
  cases fs with
  | none => simp [arith_caller_flags] at h
  | some l => exact (mem_arith_caller h).2

theorem mem_basic_caller_keep {fs : Option (List String)} {o : Option String}
    {f : String} (h : f ∈ basic_caller_flags fs o) :
    keep_basic_flag o f = true := by
  cases fs with
  | none => simp [basic_caller_flags] at h
  | some l => exact (mem_basic_caller h).2

theorem nodup_arith_caller {fs : Option (List String)} {d : Option Nat}
    {o : Option String} (h : ∀ l, fs = some l → l.Nodup) :
    (arith_caller_flags fs d o).Nodup := by
  cases fs with
  | none => simp [arith_caller_flags]
  | some l => exact (h l rfl).filter _

theorem nodup_basic_caller {fs : Option (List String)} {o : Option String}
    (h : ∀ l, fs = some l → l.Nodup) : (basic_caller_flags fs o).Nodup := by
  cases fs with
  | none => simp [basic_caller_flags]
  | some l => exact (h l rfl).filter _

theorem emit_flags_append (l₁ l₂ : List String) :
    emit_flags (l₁ ++ l₂) = emit_flags l₁ ++ emit_flags l₂ := by
  induction l₁ with
  | nil => simp [emit_flags]
  | cons f rest ih => simp [emit_flags, ih, String.append_assoc]

theorem write_basic_flags_core_eq (o : Option String) (l : List String) :
    write_basic_flags_core o l = emit_flags (l.filter (keep_basic_flag o)) := by
  induction l with
  | nil => rfl
  | cons f rest ih =>
    by_cases h : (starts_with f 'M' || starts_with f 'q'
        || (starts_with f 'O' && o.isSome)) = true
    · simp [write_basic_flags_core, h, ih, keep_basic_flag, List.filter_cons]
    · simp [write_basic_flags_core, h, ih, keep_basic_flag, List.filter_cons,
        emit_flags, String.append_assoc]

theorem write_arith_flags_core_eq (d : Option Nat) (o : Option String) (l : List String) :
    write_arith_flags_core d o l = emit_flags (l.filter (keep_arith_flag d o)) := by
  induction l with
  | nil => rfl
  | cons f rest ih =>
    by_cases h : (starts_with f 'M' || starts_with f 'q'
        || (starts_with f 'D' && d.isSome) || (starts_with f 'O' && o.isSome)) = true
    · simp [write_arith_flags_core, h, ih, keep_arith_flag, List.filter_cons]
    · simp [write_arith_flags_core, h, ih, keep_arith_flag, List.filter_cons,
        emit_flags, String.append_assoc]

theorem check_and_write_meta_flags_eq (fs : Option (List String)) (o : Option String) :
    check_and_write_meta_flags fs o = emit_flags (basic_caller_flags fs o) := by
  cases fs with
  | none => rfl
  | some l => simp [check_and_write_meta_flags, basic_caller_flags, write_basic_flags_core_eq]

theorem write_arith_flags_eq (fs : Option (List String)) (d : Option Nat) (o : Option String) :
    write_arith_flags fs d o = emit_flags (arith_caller_flags fs d o) := by
  cases fs with
  | none => rfl
  | some l => simp [write_arith_flags, arith_caller_flags, write_arith_flags_core_eq]

theorem check_and_write_opaque_eq (o : Option String) :
    check_and_write_opaque o = emit_flags (opq_flag o) := by
  cases o with
  | none => rfl
  | some a =>
    show " O" ++ a = " " ++ ("O" ++ a) ++ ""
    rw [String.append_empty, ← String.append_assoc]
    rfl

theorem write_delta_eq (d : Option Nat) : write_delta d = emit_flags (delta_flag d) := by
  cases d with
  | none => rfl
  | some n =>
    by_cases h : n = 1
    · simp [write_delta, delta_flag, h, emit_flags]
    · simp only [write_delta, delta_flag, if_pos (by exact h), ne_eq, h, not_false_iff, if_true]
      show " D" ++ Nat.repr n = " " ++ ("D" ++ Nat.repr n) ++ ""
      rw [String.append_empty, ← String.append_assoc]
      rfl

theorem check_and_write_quiet_mode_eq (q : Bool) :
    check_and_write_quiet_mode q
      = emit_flags (quiet_flag q) ++ "\r\n" ++ (if q then "mn\r\n" else "") := by
  cases q <;> rfl

theorem head_conflict {f : String} {c₁ c₂ : Char} (h₁ : starts_with f c₁ = true)
    (h₂ : starts_with f c₂ = true) (hne : c₁ ≠ c₂) : False := by
  have e₁ := head_eq_of_starts h₁
  have e₂ := head_eq_of_starts h₂
  rw [e₁] at e₂
  exact hne (Option.some.inj e₂)

theorem starts_conflict {f : String} {c : Char} (h₁ : starts_with f c = true)
    (h₂ : starts_with f c = false) : False := by
  rw [h₂] at h₁
  exact Bool.noConfusion h₁

theorem increment_flags_no_M {o : Option String} {d : Option Nat}
    {fs : Option (List String)} {q : Bool} :
    ∀ f ∈ meta_increment_flags o d fs q, starts_with f 'M' = false := by
  intro f hf
  rcases List.mem_append.mp hf with hf | hf
  · rcases List.mem_append.mp hf with hf | hf
    · rcases List.mem_append.mp hf with hf | hf
      · exact not_starts_of_starts (mem_opq_flag hf).1 (by decide)
      · exact not_starts_of_starts (mem_delta_flag hf).1 (by decide)
    · exact (keep_arith_flag_elim (mem_arith_caller_keep hf)).1
  · exact not_starts_of_starts (mem_quiet_flag hf) (by decide)

theorem validate_key_length_ok {k : String} (h : k.length ≤ 250) :
    validate_key_length k = Except.ok k := by
  simp [validate_key_length, h]

theorem validate_opaque_opt_ok {o : Option String} (h : ∀ x, o = some x → x.length ≤ 32) :
    validate_opaque_opt o = Except.ok () := by
  cases o with
  | none => rfl
  | some a => simp [validate_opaque_opt, validate_opaque_length, h a rfl]

theorem meta_get_encode_ok {key : String} {q : Bool} {o : Option String}
    {fs : Option (List String)} (h1 : key.length ≤ 250)
    (h2 : ∀ x, o = some x → x.length ≤ 32) :
    meta_get_encode key q o fs
      = Except.ok ("mg " ++ key ++ emit_flags (basic_flags o fs q)
          ++ "\r\n" ++ (if q then "mn\r\n" else "")) := by
  simp [meta_get_encode, validate_key_length_ok h1, validate_opaque_opt_ok h2,
    basic_flags, emit_flags_append, check_and_write_opaque_eq,
    check_and_write_meta_flags_eq, check_and_write_quiet_mode_eq, String.append_assoc]

theorem meta_delete_encode_ok {key : String} {q : Bool} {o : Option String}
    {fs : Option (List String)} (h1 : key.length ≤ 250)
    (h2 : ∀ x, o = some x → x.length ≤ 32) :
    meta_delete_encode key q o fs
      = Except.ok ("md " ++ key ++ emit_flags (basic_flags o fs q)
          ++ "\r\n" ++ (if q then "mn\r\n" else "")) := by
  simp [meta_delete_encode, validate_key_length_ok h1, validate_opaque_opt_ok h2,
    basic_flags, emit_flags_append, check_and_write_opaque_eq,
    check_and_write_meta_flags_eq, check_and_write_quiet_mode_eq, String.append_assoc]

theorem meta_set_encode_ok {key value : String} {q : Bool} {o : Option String}
    {fs : Option (List String)} (h1 : key.length ≤ 250)
    (h2 : ∀ x, o = some x → x.length ≤ 32) :
    meta_set_encode key value q o fs
      = Except.ok (set_cmd_head key value o fs ++ (if q then " q" else "")
          ++ "\r\n" ++ value ++ "\r\n" ++ (if q then "mn\r\n" else "")) := by
  simp [meta_set_encode, validate_key_length_ok h1, validate_opaque_opt_ok h2,
    set_cmd_head, String.append_assoc]

theorem meta_increment_encode_ok {key : String} {q : Bool} {o : Option String}
    {d : Option Nat} {fs : Option (List String)} (h1 : key.length ≤ 250)
    (h2 : ∀ x, o = some x → x.length ≤ 32) :
    meta_increment_encode key q o d fs
      = Except.ok ("ma " ++ key ++ emit_flags (meta_increment_flags o d fs q)
          ++ "\r\n" ++ (if q then "mn\r\n" else "")) := by
  simp [meta_increment_encode, validate_key_length_ok h1, validate_opaque_opt_ok h2,
    meta_increment_flags, emit_flags_append, check_and_write_opaque_eq,
    write_delta_eq, write_arith_flags_eq, check_and_write_quiet_mode_eq,
    String.append_assoc]

theorem meta_decrement_encode_ok {key : String} {q : Bool} {o : Option String}
    {d : Option Nat} {fs : Option (List String)} (h1 : key.length ≤ 250)
    (h2 : ∀ x, o = some x → x.length ≤ 32) :
    meta_decrement_encode key q o d fs
      = Except.ok ("ma " ++ key ++ " MD" ++ emit_flags (meta_increment_flags o d fs q)
          ++ "\r\n" ++ (if q then "mn\r\n" else "")) := by
  simp [meta_decrement_encode, validate_key_length_ok h1, validate_opaque_opt_ok h2,
    meta_increment_flags, emit_flags_append, check_and_write_opaque_eq,
    write_delta_eq, write_arith_flags_eq, check_and_write_quiet_mode_eq,
    String.append_assoc]

/-! Claim theorems. -/

/-- C10: for every operation, a parsed response that is a Data variant whose
records collection is absent yields a successful empty result (no data, no
error), even though this outcome is not one of the listed "success, no data"
statuses. -/
theorem c10_data_absent_yields_empty_success :
    meta_get_interpret (MetaResponse.data none) = some (Except.ok none)
    ∧ meta_set_interpret (MetaResponse.data none) = some (Except.ok none)
    ∧ meta_delete_interpret (MetaResponse.data none) = some (Except.ok none)
    ∧ meta_arithmetic_interpret (MetaResponse.data none) = some (Except.ok none) :=
  ⟨rfl, rfl, rfl, rfl⟩

/-- C9: for every operation, a Data response with a present, non-empty records
collection returns the record at index 0, and a present-but-empty collection
makes the operation abort (the `none` of the interpreter models the panic of
`items.remove(0)` on an empty vector) rather than return a result or an
error. -/
theorem c9_first_record_is_partial :
    (∀ (x : MetaValue) (rest : List MetaValue),
      meta_get_interpret (MetaResponse.data (some (x :: rest))) = some (Except.ok (some x))
      ∧ meta_set_interpret (MetaResponse.data (some (x :: rest))) = some (Except.ok (some x))
      ∧ meta_delete_interpret (MetaResponse.data (some (x :: rest))) = some (Except.ok (some x))
      ∧ meta_arithmetic_interpret (MetaResponse.data (some (x :: rest))) = some (Except.ok (some x)))
    ∧ meta_get_interpret (MetaResponse.data (some [])) = none
    ∧ meta_set_interpret (MetaResponse.data (some [])) = none
    ∧ meta_delete_interpret (MetaResponse.data (some [])) = none
    ∧ meta_arithmetic_interpret (MetaResponse.data (some [])) = none :=
  ⟨fun _ _ => ⟨rfl, rfl, rfl, rfl⟩, rfl, rfl, rfl, rfl⟩

/-- C7: end-to-end store scenario: key `foo`, payload `bar`, opaque `42`, no
extra flags, quiet off writes exactly `ms foo 3 O42\r\n` followed by
`bar\r\n` (payload length in decimal), and a `stored` status yields a
successful empty result. -/
theorem c7_scenario_store_foo_bar :
    meta_set_encode "foo" "bar" false (some "42") none
      = Except.ok ("ms foo 3 O42\r\n" ++ "bar\r\n")
    ∧ meta_set_interpret (MetaResponse.status Status.stored) = some (Except.ok none) :=
  ⟨rfl, rfl⟩

/-- C6: for `meta_delete`, an `exists` status yields the distinguished
conflict error carrying that status, the `deleted` and `no-op` statuses yield
a successful empty result, and every other bare status yields the generic
protocol error carrying the status. -/
theorem c6_delete_exists_is_conflict :
    meta_delete_interpret (MetaResponse.status Status.existsStatus)
      = some (Except.error (Error.protocol Status.existsStatus))
    ∧ meta_delete_interpret (MetaResponse.status Status.deleted) = some (Except.ok none)
    ∧ meta_delete_interpret (MetaResponse.status Status.noOp) = some (Except.ok none)
    ∧ ∀ s : Status, s ≠ Status.deleted → s ≠ Status.existsStatus → s ≠ Status.noOp →
        meta_delete_interpret (MetaResponse.status s)
          = some (Except.error (statusToError s)) := by
  refine ⟨rfl, rfl, rfl, ?_⟩
  intro s h1 h2 h3
  cases s <;> first
    | rfl
    | exact absurd rfl h1
    | exact absurd rfl h2
    | exact absurd rfl h3

/-- Witness for C6 at the concrete status `stored`. -/
theorem c6_witness :
    meta_delete_interpret (MetaResponse.status Status.stored)
      = some (Except.error (statusToError Status.stored)) :=
  c6_delete_exists_is_conflict.2.2.2 Status.stored (by decide) (by decide) (by decide)

/-- C2: for the arithmetic operations, an absent delta or a delta of exactly 1
writes no D flag; a delta other than 1 (e.g. 5) writes ` D<delta>`; and every
caller-supplied flag beginning with `D` is dropped by the flag loop whenever a
delta was explicitly supplied, including a delta of exactly 1. -/
theorem c2_delta_flag_behaviour :
    write_delta none = ""
    ∧ write_delta (some 1) = ""
    ∧ (∀ d : Nat, d ≠ 1 → write_delta (some d) = " D" ++ Nat.repr d)
    ∧ write_delta (some 5) = " D5"
    ∧ (∀ (d : Nat) (o : Option String) (fs : List String) (f : String),
        f ∈ arith_caller_flags (some fs) (some d) o → starts_with f 'D' = false) := by
  refine ⟨rfl, rfl, ?_, rfl, ?_⟩
  · intro d hd
    simp [write_delta, hd]
  · intro d o fs f h
    exact (keep_arith_flag_elim (mem_arith_caller h).2).2.2.1 rfl

/-- Witness for C2: delta 7 produces ` D7`, and the caller flag `N60` kept by
the loop under an explicit delta of 1 does not begin with `D`. -/
theorem c2_witness :
    write_delta (some 7) = " D7"
    ∧ starts_with "N60" 'D' = false :=
  ⟨(c2_delta_flag_behaviour.2.2.1 7 (by decide)).trans rfl,
   c2_delta_flag_behaviour.2.2.2.2 1 none ["N60"] "N60" (by decide)⟩

/-- C1: for the arithmetic operations, given an explicit opaque and a caller
flag list containing an `O`-prefixed token, the emitted flag sequence contains
exactly one `O` flag and it is the canonical `O<opaque>`; every caller flag
beginning with `O` is dropped. -/
theorem c1_opaque_precedence :
    ∀ (o : String) (d : Option Nat) (fs : List String) (q : Bool),
      (∃ f ∈ fs, starts_with f 'O' = true) →
      (meta_increment_flags (some o) d (some fs) q).filter (fun f => starts_with f 'O')
          = ["O" ++ o]
      ∧ (meta_decrement_flags (some o) d (some fs) q).filter (fun f => starts_with f 'O')
          = ["O" ++ o] := by
  intro o d fs q _
  have hO : starts_with ("O" ++ o) 'O' = true := starts_with_append_O o
  have hdelta : (delta_flag d).filter (fun f => starts_with f 'O') = [] :=
    List.filter_eq_nil_iff.mpr (fun f hf => by
      have h1 := not_starts_of_starts (mem_delta_flag hf).1 (show ('D' : Char) ≠ 'O' by decide)
      simp [h1])
  have hcall : (arith_caller_flags (some fs) d (some o)).filter
      (fun f => starts_with f 'O') = [] :=
    List.filter_eq_nil_iff.mpr (fun f hf => by
      simp [(keep_arith_flag_elim (mem_arith_caller hf).2).2.2.2 rfl])
  have hq : (quiet_flag q).filter (fun f => starts_with f 'O') = [] :=
    List.filter_eq_nil_iff.mpr (fun f hf => by
      have h1 := not_starts_of_starts (mem_quiet_flag hf) (show ('q' : Char) ≠ 'O' by decide)
      simp [h1])
  have hmd : starts_with "MD" 'O' = false := by decide
  constructor
  · simp [meta_increment_flags, List.filter_append, hdelta, hcall, hq, opq_flag,
      List.filter_cons, hO]
  · simp [meta_decrement_flags, List.filter_append, hdelta, hcall, hq, opq_flag,
      List.filter_cons, hO, hmd]

/-- Witness for C1 with opaque `42` and the caller flag list `[Oxyz]`. -/
theorem c1_witness :
    (meta_increment_flags (some "42") none (some ["Oxyz"]) false).filter
        (fun f => starts_with f 'O') = ["O" ++ "42"]
    ∧ (meta_decrement_flags (some "42") none (some ["Oxyz"]) false).filter
        (fun f => starts_with f 'O') = ["O" ++ "42"] :=
  c1_opaque_precedence "42" none ["Oxyz"] false (by decide)

/-- C3: for every operation, a key longer than 250 bytes or a supplied opaque
longer than 32 bytes makes the operation fail with the validation error, and
the encoder produces no wire bytes at all (validation precedes every
write). -/
theorem c3_validation_before_any_write :
    ∀ (key value : String) (q : Bool) (o : Option String) (d : Option Nat)
      (fs : Option (List String)),
      (250 < key.length ∨ ∃ x, o = some x ∧ 32 < x.length) →
      meta_get_encode key q o fs = Except.error Error.validation
      ∧ meta_set_encode key value q o fs = Except.error Error.validation
      ∧ meta_delete_encode key q o fs = Except.error Error.validation
      ∧ meta_increment_encode key q o d fs = Except.error Error.validation
      ∧ meta_decrement_encode key q o d fs = Except.error Error.validation := by
  intro key value q o d fs h
  by_cases hk : key.length ≤ 250
  · rcases h with h | ⟨x, hx, hlen⟩
    · omega
    · have hvk := validate_key_length_ok hk
      have hvo : validate_opaque_opt o = Except.error Error.validation := by
        subst hx
        simp [validate_opaque_opt, validate_opaque_length, Nat.not_le.mpr hlen]
      exact ⟨by simp [meta_get_encode, hvk, hvo],
        by simp [meta_set_encode, hvk, hvo],
        by simp [meta_delete_encode, hvk, hvo],
        by simp [meta_increment_encode, hvk, hvo],
        by simp [meta_decrement_encode, hvk, hvo]⟩
  · have hvk : validate_key_length key = Except.error Error.validation := by
      simp [validate_key_length, hk]
    exact ⟨by simp [meta_get_encode, hvk],
      by simp [meta_set_encode, hvk],
      by simp [meta_delete_encode, hvk],
      by simp [meta_increment_encode, hvk],
      by simp [meta_decrement_encode, hvk]⟩

/-- Witness for C3 at a 251-byte key and at a 33-byte opaque token. -/
theorem c3_witness :
    meta_get_encode (String.mk (List.replicate 251 'a')) false none none
      = Except.error Error.validation
    ∧ meta_set_encode "k" "v" false (some (String.mk (List.replicate 33 'b'))) none
      = Except.error Error.validation := by
  constructor
  · exact (c3_validation_before_any_write (String.mk (List.replicate 251 'a')) "" false
      none none none
      (Or.inl (by rw [String.length_mk, List.length_replicate]; omega))).1
  · exact (c3_validation_before_any_write "k" "v" false
      (some (String.mk (List.replicate 33 'b'))) none none
      (Or.inr ⟨_, rfl, by rw [String.length_mk, List.length_replicate]; omega⟩)).2.1

/-- C4: for `meta_set` under quiet mode, ` q` is appended as the final flag
immediately before the line terminator and the sentinel `mn\r\n` is written
immediately after the payload block's terminator; without quiet mode the
command is identical except that neither appears. -/
theorem c4_set_quiet_layout :
    ∀ (key value : String) (o : Option String) (fs : Option (List String)),
      key.length ≤ 250 → (∀ x, o = some x → x.length ≤ 32) →
      meta_set_encode key value true o fs
        = Except.ok (set_cmd_head key value o fs ++ " q" ++ "\r\n"
            ++ value ++ "\r\n" ++ "mn\r\n")
      ∧ meta_set_encode key value false o fs
        = Except.ok (set_cmd_head key value o fs ++ "\r\n" ++ value ++ "\r\n") := by
  intro key value o fs h1 h2
  constructor
  · simpa using meta_set_encode_ok (q := true) h1 h2
  · simpa using meta_set_encode_ok (q := false) h1 h2

/-- Witness for C4 at key `foo`, payload `bar`, no opaque, no flags. -/
theorem c4_witness :
    meta_set_encode "foo" "bar" true none none
      = Except.ok (set_cmd_head "foo" "bar" none none ++ " q" ++ "\r\n"
          ++ "bar" ++ "\r\n" ++ "mn\r\n")
    ∧ meta_set_encode "foo" "bar" false none none
      = Except.ok (set_cmd_head "foo" "bar" none none ++ "\r\n" ++ "bar" ++ "\r\n") :=
  c4_set_quiet_layout "foo" "bar" none none (by decide) (by simp)

/-- C5: `meta_decrement` writes the decrement mode flag ` MD` immediately
after the key, before the opaque, delta and any other flags (its flag
sequence is `MD` followed by exactly the increment sequence, and its wire
line is the increment line with ` MD` inserted after the key), while
`meta_increment` never emits a flag beginning with `M`. -/
theorem c5_decrement_mode_flag :
    ∀ (key : String) (q : Bool) (o : Option String) (d : Option Nat)
      (fs : Option (List String)),
      key.length ≤ 250 → (∀ x, o = some x → x.length ≤ 32) →
      meta_decrement_flags o d fs q = "MD" :: meta_increment_flags o d fs q
      ∧ (∀ f ∈ meta_increment_flags o d fs q, starts_with f 'M' = false)
      ∧ meta_increment_encode key q o d fs
          = Except.ok ("ma " ++ key ++ arith_suffix o d fs q)
      ∧ meta_decrement_encode key q o d fs
          = Except.ok ("ma " ++ key ++ " MD" ++ arith_suffix o d fs q) := by
  intro key q o d fs h1 h2
  refine ⟨rfl, increment_flags_no_M, ?_, ?_⟩
  · simp [meta_increment_encode, validate_key_length_ok h1, validate_opaque_opt_ok h2,
      arith_suffix, String.append_assoc]
  · simp [meta_decrement_encode, validate_key_length_ok h1, validate_opaque_opt_ok h2,
      arith_suffix, String.append_assoc]

/-- Witness for C5 at key `k` with no optional parameters. -/
theorem c5_witness :
    meta_decrement_flags none none none false
      = "MD" :: meta_increment_flags none none none false
    ∧ meta_increment_encode "k" false none none none
      = Except.ok ("ma " ++ "k" ++ arith_suffix none none none false)
    ∧ meta_decrement_encode "k" false none none none
      = Except.ok ("ma " ++ "k" ++ " MD" ++ arith_suffix none none none false) := by
  have h := c5_decrement_mode_flag "k" false none none none (by decide) (by simp)
  exact ⟨h.1, h.2.2.1, h.2.2.2⟩

/-- Counterexample to C8 as stated: with the duplicated caller flag list
`[N60, N60]` (no explicit parameters), `meta_increment` emits the token `N60`
twice. -/
theorem c8_counterexample :
    ¬ (meta_increment_flags none none (some ["N60", "N60"]) false).Nodup := by
  decide

/-- C8 (amended): for every operation, provided the caller-supplied flag list
itself contains no duplicate tokens, no flag is emitted twice — the flag
sequences of get/set/delete (`basic_flags`) and of increment and decrement
contain no duplicate tokens. -/
theorem c8_no_flag_emitted_twice :
    ∀ (o : Option String) (d : Option Nat) (fs : Option (List String)) (q : Bool),
      (∀ l, fs = some l → l.Nodup) →
      (basic_flags o fs q).Nodup
      ∧ (meta_increment_flags o d fs q).Nodup
      ∧ (meta_decrement_flags o d fs q).Nodup := by
  intro o d fs q h
  have hA : (opq_flag o).Nodup := by cases o <;> simp [opq_flag]
  have hB : (delta_flag d).Nodup := by
    cases d with
    | none => simp [delta_flag]
    | some n => by_cases hn : n = 1 <;> simp [delta_flag, hn]
  have hC : (arith_caller_flags fs d o).Nodup := nodup_arith_caller h
  have hCb : (basic_caller_flags fs o).Nodup := nodup_basic_caller h
  have hD : (quiet_flag q).Nodup := by cases q <;> simp [quiet_flag]
  have djOD : (opq_flag o).Disjoint (delta_flag d) := fun f h1 h2 =>
    head_conflict (mem_opq_flag h1).1 (mem_delta_flag h2).1 (by decide)
  have djOC : (opq_flag o).Disjoint (arith_caller_flags fs d o) := fun f h1 h2 =>
    starts_conflict (mem_opq_flag h1).1
      ((keep_arith_flag_elim (mem_arith_caller_keep h2)).2.2.2 (mem_opq_flag h1).2)
  have djOq : (opq_flag o).Disjoint (quiet_flag q) := fun f h1 h2 =>
    head_conflict (mem_opq_flag h1).1 (mem_quiet_flag h2) (by decide)
  have djDC : (delta_flag d).Disjoint (arith_caller_flags fs d o) := fun f h1 h2 =>
    starts_conflict (mem_delta_flag h1).1
      ((keep_arith_flag_elim (mem_arith_caller_keep h2)).2.2.1 (mem_delta_flag h1).2)
  have djDq : (delta_flag d).Disjoint (quiet_flag q) := fun f h1 h2 =>
    head_conflict (mem_delta_flag h1).1 (mem_quiet_flag h2) (by decide)
  have djCq : (arith_caller_flags fs d o).Disjoint (quiet_flag q) := fun f h1 h2 =>
    starts_conflict (mem_quiet_flag h2)
      (keep_arith_flag_elim (mem_arith_caller_keep h1)).2.1
  have djOCb : (opq_flag o).Disjoint (basic_caller_flags fs o) := fun f h1 h2 =>
    starts_conflict (mem_opq_flag h1).1
      ((keep_basic_flag_elim (mem_basic_caller_keep h2)).2.2 (mem_opq_flag h1).2)
  have djCbq : (basic_caller_flags fs o).Disjoint (quiet_flag q) := fun f h1 h2 =>
    starts_conflict (mem_quiet_flag h2)
      (keep_basic_flag_elim (mem_basic_caller_keep h1)).2.1
  have hinc : (meta_increment_flags o d fs q).Nodup := by
    rw [meta_increment_flags]
    refine List.nodup_append.mpr ⟨List.nodup_append.mpr
      ⟨List.nodup_append.mpr ⟨hA, hB, djOD⟩, hC, ?_⟩, hD, ?_⟩
    · exact List.disjoint_append_left.mpr ⟨djOC, djDC⟩
    · exact List.disjoint_append_left.mpr
        ⟨List.disjoint_append_left.mpr ⟨djOq, djDq⟩, djCq⟩
  refine ⟨?_, hinc, ?_⟩
  · rw [basic_flags]
    refine List.nodup_append.mpr ⟨List.nodup_append.mpr ⟨hA, hCb, djOCb⟩, hD, ?_⟩
    exact List.disjoint_append_left.mpr ⟨djOq, djCbq⟩
  · have e : meta_decrement_flags o d fs q = "MD" :: meta_increment_flags o d fs q := rfl
    rw [e, List.nodup_cons]
    refine ⟨fun hmem => ?_, hinc⟩
    have hM := increment_flags_no_M "MD" hmem
    exact absurd hM (by decide)

/-- Witness for C8 (amended) at the duplicate-free caller flag list
`[N60, T30]` with all explicit parameters supplied. -/
theorem c8_witness :
    (basic_flags (some "42") (some ["N60", "T30"]) true).Nodup
    ∧ (meta_increment_flags (some "42") (some 5) (some ["N60", "T30"]) true).Nodup
    ∧ (meta_decrement_flags (some "42") (some 5) (some ["N60", "T30"]) true).Nodup :=
  c8_no_flag_emitted_twice (some "42") (some 5) (some ["N60", "T30"]) true
    (fun l hl => by cases hl; decide)

end MetaProtocol
